import Mathlib

/-!
Verification of the codex OAuth proxy (opencode-openai-codex-auth).

This file shallowly embeds the proxy's core logic in Lean 4:

* the credential validity predicate `hasValidAccess` and the cooperative
  concurrency semantics of `ensureFreshCredentials` / `bootstrapCredentials`
  (a small-step scheduler over task phases, with the shared refresh promise
  modelled explicitly);
* the request-transform module: `normalizeModel`, `getModelConfig`,
  `getReasoningConfig`, `filterInput`, `isOpenCodeSystemPrompt`,
  `filterOpenCodeSystemPrompts`, `addCodexBridgeMessage`,
  `addToolGuideMessage`, `transformRequestBody`;
* the request handler's pre-upstream decision sequence
  (`handleResponsesEndpoint`'s 405/400/400/401 short-circuits), the
  instruction-resolution step of the streaming handler variant, the two
  SSE-to-JSON conversion stages (one with a raw-relay fallback, one
  without), and the server's path normalization / dispatch.

External collaborators (the OAuth token-exchange endpoint, the credential
file on disk, the interactive login flow, the JSON parser, the SSE
converter `convertSseToJson`, and instruction-text fetching) are modelled
as parameters/oracles, never as stubs of logic that lives in the repo.
-/

namespace CodexProxy

/-! ## String helpers (JS semantics) -/

/-- `subListAt hs needle`: `needle` occurs as a contiguous run of `hs`
starting at some position (`needle` empty counts as occurring). -/
def subListAt : List Char → List Char → Bool
  | hs, needle =>
    needle.isPrefixOf hs ||
      (match hs with
       | [] => false
       | _ :: t => subListAt t needle)

/-- JS `String.prototype.includes`: `includesSubstr s sub` holds when `sub`
occurs as a contiguous substring of `s`. -/
def includesSubstr (s sub : String) : Bool :=
  subListAt s.data sub.data

/-- JS `String.prototype.toLowerCase`, character by character (the model
covers the ASCII alphabet, which is all the source ever matches on). -/
def toLowerStr (s : String) : String :=
  ⟨s.data.map Char.toLower⟩

/-- JS `String.prototype.trim` (ASCII whitespace, which covers the texts the
source ever trims). -/
def jsTrim (s : String) : String :=
  let ws := fun c => c = ' ' || c = '\t' || c = '\n' || c = '\r'
  ⟨((s.data.dropWhile ws).reverse.dropWhile ws).reverse⟩

/-- JS `String.prototype.substring(0, n)` / model of a character-count take. -/
def takeChars (n : Nat) (s : String) : String :=
  ⟨s.data.take n⟩

/-- JS `String.prototype.startsWith`. -/
def jsStartsWith (s p : String) : Bool :=
  p.data.isPrefixOf s.data

/-- JS `String.prototype.slice(k)` for an ASCII prefix: drop `k` characters. -/
def dropChars (k : Nat) (s : String) : String :=
  ⟨s.data.drop k⟩

/-- JS truthiness of an optional string: `undefined`/`null` and `""` are falsy. -/
def jsTruthy : Option String → Bool
  | none => false
  | some s => s ≠ ""

/-! ## Credentials and validity (`hasValidAccess`, part_000) -/

/-- `StoredCredentials`: access/refresh token pair with expiry (epoch millis)
and the ChatGPT account id extracted from the access token. -/
structure StoredCredentials where
  access : String
  refresh : String
  expires : Int
  accountId : String
deriving DecidableEq, Repr

/-- `hasValidAccess` from part_000: a null record is invalid; otherwise the
record is valid when `creds.expires > Date.now() + 60_000`. `now` is the
current epoch-milliseconds clock reading. -/
def hasValidAccess (creds : Option StoredCredentials) (now : Int) : Bool :=
  match creds with
  | none => false
  | some c => decide (c.expires > now + 60000)

/-! ## Model normalization (`normalizeModel`, part_001) -/

/-- `normalizeModel` from part_001: absent or empty model names fall back to
`"gpt-5"`; a name containing `"codex"` case-insensitively maps to
`"gpt-5-codex"`; a name containing `"gpt-5"` or `"gpt 5"` case-insensitively
maps to `"gpt-5"`; anything else falls back to `"gpt-5"`. -/
def normalizeModel (model : Option String) : String :=
  match model with
  | none => "gpt-5"
  | some m =>
    if m = "" then "gpt-5"
    else if includesSubstr (toLowerStr m) "codex" then "gpt-5-codex"
    else if includesSubstr (toLowerStr m) "gpt-5" || includesSubstr (toLowerStr m) "gpt 5" then "gpt-5"
    else "gpt-5"

/-! ## Configuration types (part_001 types module) -/

/-- Reasoning effort levels (TS string union). -/
inductive Effort where
  | minimal | low | medium | high
deriving DecidableEq, Repr

/-- Reasoning summary levels (TS string union). -/
inductive Summary where
  | auto | concise | detailed
deriving DecidableEq, Repr

/-- Text verbosity levels (TS string union). -/
inductive Verbosity where
  | low | medium | high
deriving DecidableEq, Repr

/-- `ConfigOptions`: per-scope configuration; every field optional. -/
structure ConfigOptions where
  reasoningEffort : Option Effort := none
  reasoningSummary : Option Summary := none
  textVerbosity : Option Verbosity := none
  «include» : Option (List String) := none
deriving DecidableEq, Repr

/-- `UserConfig`: global options plus per-model options (keyed by model name). -/
structure UserConfig where
  global : ConfigOptions := {}
  models : List (String × ConfigOptions) := []
deriving DecidableEq, Repr

/-- `ReasoningConfig`: fully resolved reasoning settings. -/
structure ReasoningConfig where
  effort : Effort
  summary : Summary
deriving DecidableEq, Repr

/-- `getModelConfig` from part_001: merge global options with model-specific
options; a key present in the model-specific options overrides the global one
(JS object spread `{...globalOptions, ...modelOptions}` over optional keys). -/
def getModelConfig (modelName : String) (userConfig : UserConfig) : ConfigOptions :=
  let globalOptions := userConfig.global
  let modelOptions := (userConfig.models.lookup modelName).getD {}
  { reasoningEffort := modelOptions.reasoningEffort <|> globalOptions.reasoningEffort
    reasoningSummary := modelOptions.reasoningSummary <|> globalOptions.reasoningSummary
    textVerbosity := modelOptions.textVerbosity <|> globalOptions.textVerbosity
    «include» := modelOptions.«include» <|> globalOptions.«include» }

/-- `getReasoningConfig` from part_001. The lightweight check
(`originalModel?.includes("nano") || originalModel?.includes("mini")`) and the
codex check (`originalModel?.includes("codex")`) are both CASE-SENSITIVE on
the ORIGINAL model name, unlike `normalizeModel` which lowercases first.
Effort defaults to `"minimal"` for lightweight models, else `"medium"`; a
user-configured effort takes precedence; `"minimal"` is then downgraded to
`"low"` exactly when the case-sensitive codex check succeeded. Summary
defaults to `"auto"`. -/
def getReasoningConfig (originalModel : Option String)
    (userConfig : ConfigOptions := {}) : ReasoningConfig :=
  let isLightweight :=
    match originalModel with
    | some m => includesSubstr m "nano" || includesSubstr m "mini"
    | none => false
  let isCodex :=
    match originalModel with
    | some m => includesSubstr m "codex"
    | none => false
  let defaultEffort : Effort := if isLightweight then .minimal else .medium
  let effort0 := userConfig.reasoningEffort.getD defaultEffort
  let effort : Effort := if isCodex && decide (effort0 = .minimal) then .low else effort0
  { effort := effort
    summary := userConfig.reasoningSummary.getD .auto }

/-! ## Input items and `filterInput` (part_001) -/

/-- A single part of a structured content array (`{type, text}`). -/
structure ContentPart where
  type : String
  text : Option String := none
deriving DecidableEq, Repr

/-- `content` of an input item: a plain string, a list of typed parts, or
some other JSON value (modelled opaquely). -/
inductive ItemContent where
  | str (s : String)
  | parts (l : List ContentPart)
  | other
deriving DecidableEq, Repr

/-- `InputItem`: `{id?, type, role, content, ...}`. `extra` models any
further JSON properties the caller attached (carried through untouched). -/
structure InputItem where
  id : Option String := none
  type : String := ""
  role : String := ""
  content : ItemContent := .other
  extra : List (String × String) := []
deriving DecidableEq, Repr

/-- `filterInput` from part_001: on a non-array input return it unchanged;
otherwise drop every `"item_reference"` item, then strip the `id` property
from each remaining item whose `id` is truthy (a missing id or an empty
string id is left as-is, since `if (item.id)` is a truthiness test). -/
def filterInput (input : Option (List InputItem)) : Option (List InputItem) :=
  match input with
  | none => none
  | some l =>
    some ((l.filter fun item => !(item.type == "item_reference")).map
      fun item => if jsTruthy item.id then { item with id := none } else item)

/-! ## OpenCode prompt detection and prompt injection (part_001) -/

/-- The content-text extraction nested in `isOpenCodeSystemPrompt`: a string
content is itself; an array keeps the parts with `type === "input_text"` and
truthy `text`, joined with newlines; anything else is `""`. -/
def getContentText (item : InputItem) : String :=
  match item.content with
  | .str s => s
  | .parts l =>
    String.intercalate "\n"
      ((l.filter fun c => c.type == "input_text" && jsTruthy c.text).map
        fun c => c.text.getD "")
  | .other => ""

/-- `isOpenCodeSystemPrompt` from part_001: only developer/system items
qualify; empty content text never matches; with a truthy cached prompt an
exact (trimmed) match or a match of the first 200 characters of the trimmed
texts qualifies; independently, content starting with the known signature
`"You are a coding agent running in"` qualifies. -/
def isOpenCodeSystemPrompt (item : InputItem) (cachedPrompt : Option String) : Bool :=
  let isSystemRole := item.role == "developer" || item.role == "system"
  if !isSystemRole then false
  else
    let contentText := getContentText item
    if contentText == "" then false
    else
      (jsTruthy cachedPrompt &&
        (let cp := jsTrim (cachedPrompt.getD "")
         jsTrim contentText == cp ||
           (takeChars 200 (jsTrim contentText) == takeChars 200 cp))) ||
      jsStartsWith contentText "You are a coding agent running in"

/-- `filterOpenCodeSystemPrompts` from part_001, with the external
`getOpenCodeCodexPrompt()` result passed in as `cachedPrompt` (`none` models
a failed fetch): keep user items, drop detected OpenCode system prompts. -/
def filterOpenCodeSystemPrompts (input : Option (List InputItem))
    (cachedPrompt : Option String) : Option (List InputItem) :=
  match input with
  | none => none
  | some l =>
    some (l.filter fun item =>
      item.role == "user" || !isOpenCodeSystemPrompt item cachedPrompt)

/-- `addCodexBridgeMessage` from part_001, with the imported
`CODEX_OPENCODE_BRIDGE` constant passed in as `bridgeText`. -/
def addCodexBridgeMessage (input : Option (List InputItem)) (hasTools : Bool)
    (bridgeText : String) : Option (List InputItem) :=
  match input with
  | none => none
  | some l =>
    if hasTools then
      some ({ id := none, type := "message", role := "developer",
              content := .parts [{ type := "input_text", text := some bridgeText }],
              extra := [] } :: l)
    else some l

/-- `addToolGuideMessage` from part_001 (`messageText = none` models the
`undefined` guide of the `none` tool profile). -/
def addToolGuideMessage (input : Option (List InputItem)) (hasTools : Bool)
    (messageText : Option String) : Option (List InputItem) :=
  match input with
  | none => none
  | some l =>
    if hasTools && jsTruthy messageText then
      some ({ id := none, type := "message", role := "developer",
              content := .parts [{ type := "input_text", text := some (messageText.getD "") }],
              extra := [] } :: l)
    else some l

/-! ## Request body and `transformRequestBody` (part_001) -/

/-- Partial reasoning settings as supplied by the caller. -/
structure ReasoningPartial where
  effort : Option Effort := none
  summary : Option Summary := none
deriving DecidableEq, Repr

/-- `text` settings of a request body. -/
structure TextSettings where
  verbosity : Option Verbosity := none
deriving DecidableEq, Repr

/-- `RequestBody` from the types module. `tools` is opaque (only its JS
truthiness matters downstream; an array — even empty — is truthy, so
truthiness is `Option.isSome`). -/
structure RequestBody where
  model : Option String := none
  store : Option Bool := none
  stream : Option Bool := none
  instructions : Option String := none
  input : Option (List InputItem) := none
  tools : Option (List String) := none
  reasoning : Option ReasoningPartial := none
  text : Option TextSettings := none
  «include» : Option (List String) := none
  prompt_cache_key : Option String := none
  max_output_tokens : Option Int := none
  max_completion_tokens : Option Int := none
  metadata : Option (List (String × String)) := none
deriving DecidableEq, Repr

/-- `transformRequestBody` from part_001. External inputs are passed as
parameters: `codexInstructions` (the cached instruction text argument),
`cachedPrompt` (result of `getOpenCodeCodexPrompt()`, `none` on fetch
failure), `bridgeText` (the imported `CODEX_OPENCODE_BRIDGE` constant) and
`toolGuideMessage` (the `TOOL_GUIDE_MESSAGE` selected by the tool profile,
`none` when the profile disables guidance).

Steps, in source order: model normalization (config looked up under the
original name when truthy, else the normalized name); forcing
`store=false`, `stream=true`; unconditionally overwriting `instructions`
with `codexInstructions`; input filtering plus mode-dependent prompt
injection; reasoning resolution from the ORIGINAL model name; text
verbosity; `include` defaulting; clearing the max-token fields. -/
def transformRequestBody (body : RequestBody) (codexInstructions : String)
    (userConfig : UserConfig := {}) (codexMode : Bool := true)
    (cachedPrompt : Option String := none) (bridgeText : String := "")
    (toolGuideMessage : Option String := none) : RequestBody :=
  let originalModel := body.model
  let normalizedModel := normalizeModel body.model
  let lookupModel := if jsTruthy originalModel then originalModel.getD "" else normalizedModel
  let modelConfig := getModelConfig lookupModel userConfig
  let body1 := { body with
    model := some normalizedModel
    store := some false
    stream := some true
    instructions := some codexInstructions }
  let body2 :=
    match body1.input with
    | none => body1
    | some l =>
      let filtered := filterInput (some l)
      let newInput :=
        if codexMode then
          addCodexBridgeMessage (filterOpenCodeSystemPrompts filtered cachedPrompt)
            body1.tools.isSome bridgeText
        else
          addToolGuideMessage filtered body1.tools.isSome toolGuideMessage
      { body1 with input := newInput }
  let reasoningConfig := getReasoningConfig originalModel modelConfig
  { body2 with
    reasoning := some { effort := some reasoningConfig.effort
                        summary := some reasoningConfig.summary }
    text := some { verbosity := some (modelConfig.textVerbosity.getD .medium) }
    «include» := some (modelConfig.«include».getD ["reasoning.encrypted_content"])
    max_output_tokens := none
    max_completion_tokens := none }

/-! ## Path normalization and request dispatch (part_000 `startServer`) -/

/-- `normalizePath` from part_000: ensure a leading slash; strip a leading
`"/v1/"` to `"/"` (drop the first three characters); map bare `"/v1"` to
`"/"`; leave everything else unchanged. -/
def normalizePath (pathname : String) : String :=
  if !jsStartsWith pathname "/" then "/" ++ pathname
  else if jsStartsWith pathname "/v1/" then dropChars 3 pathname
  else if pathname = "/v1" then "/"
  else pathname

/-- Where the server's request callback routes a request. -/
inductive Route where
  | health
  | responses
  | notFound
deriving DecidableEq, Repr

/-- The dispatch sequence of the `createServer` callback in `startServer`
(both proxy variants are identical here): a GET whose normalized path is
`"/health"` is answered directly; otherwise any normalized path starting
with `"/responses"` goes to `handleResponsesEndpoint`; everything else is
a 404. -/
def dispatch (method : String) (pathname : String) : Route :=
  let normalized := normalizePath pathname
  if method = "GET" ∧ normalized = "/health" then .health
  else if jsStartsWith normalized "/responses" then .responses
  else .notFound

/-! ## `handleResponsesEndpoint`: pre-upstream decision sequence (part_000) -/

/-- Outcome of the handler's pre-upstream phase: either a short-circuit JSON
error response (no upstream call is made), or the handler proceeds to build
headers and issue the upstream `fetch` with the given credentials. -/
inductive HandlerOutcome where
  | errorResponse (status : Nat) (errorMsg : String)
  | proceed (body : RequestBody) (creds : StoredCredentials)
deriving DecidableEq, Repr

/-- `true` exactly when the pre-upstream phase reaches the upstream call. -/
def callsUpstream : HandlerOutcome → Bool
  | .proceed _ _ => true
  | .errorResponse _ _ => false

/-- The decision sequence of `handleResponsesEndpoint` before the upstream
call (identical in both proxy variants): non-POST → 405; empty raw body →
400; JSON parse failure (the parser is an oracle returning
`Except detail body`) → 400 with `"Invalid JSON body: " ++ detail`;
then the `metadata` field is deleted, `ensureFreshCredentials()` runs, and
absent credentials afterwards → 401; otherwise the handler proceeds to the
upstream call. -/
def handleResponsesEndpoint (method : String) (rawBody : String)
    (parseResult : Except String RequestBody)
    (credsAfterEnsure : Option StoredCredentials) : HandlerOutcome :=
  if method ≠ "POST" then .errorResponse 405 "Method not allowed"
  else if rawBody = "" then .errorResponse 400 "Request body is required"
  else
    match parseResult with
    | .error detail => .errorResponse 400 ("Invalid JSON body: " ++ detail)
    | .ok parsedBody =>
      let parsedBody := { parsedBody with metadata := none }
      match credsAfterEnsure with
      | none => .errorResponse 401 "Authentication required"
      | some creds => .proceed parsedBody creds

/-! ## Instruction resolution (part_000, streaming-proxy variant) -/

/-- The instruction-resolution step of the second `handleResponsesEndpoint`
variant: non-string or absent caller instructions become `""`; then a
whitespace-only value is replaced by `""` when injection is disabled, else
by the cached codex instruction text, with the literal `"You are Codex."`
standing in when that cached text is null or empty
(`globalCodexInstructions || "You are Codex."`). -/
def resolveInstructions (callerInstructions : Option String)
    (disableCodexInstructions : Bool)
    (globalCodexInstructions : Option String) : String :=
  let instr := callerInstructions.getD ""
  if jsTrim instr = "" then
    if disableCodexInstructions then ""
    else if jsTruthy globalCodexInstructions then globalCodexInstructions.getD ""
    else "You are Codex."
  else instr

/-! ## SSE-to-JSON conversion stages (part_000, both variants) -/

/-- An upstream HTTP response, abstracted: status plus an opaque body tag
(the converter itself, `convertSseToJson`, is an external collaborator, so
a conversion attempt is an oracle `Except message response`). -/
structure UpstreamResponse where
  status : Nat
  body : String
deriving DecidableEq, Repr

/-- What the client connection ultimately receives from the conversion
stage onwards. -/
inductive ClientResult where
  | forwarded (r : UpstreamResponse)
  | internalError (status : Nat) (errorMsg : String)
deriving DecidableEq, Repr

/-- Conversion stage of the FIRST proxy variant: when `FORCE_JSON_RESPONSES`
is set (the default: `CODEX_PROXY_FORCE_JSON !== "0"`), the handler awaits
`convertSseToJson` with NO try/catch — a conversion failure propagates out
of `handleResponsesEndpoint` into the server callback's catch, which sends
`500 {"error": "Internal server error"}` (headers not yet sent at that
point). The client's streaming preference is never consulted. -/
def conversionStageForceJson (forceJson : Bool) (upstream : UpstreamResponse)
    (conversion : Except String UpstreamResponse) : ClientResult :=
  if forceJson then
    match conversion with
    | .ok converted => .forwarded converted
    | .error _ => .internalError 500 "Internal server error"
  else .forwarded upstream

/-- Conversion stage of the SECOND proxy variant: the client's original
streaming preference was captured before the body was mutated; when the
client did not ask for streaming, `convertSseToJson` is attempted inside a
try/catch whose catch falls back to relaying the raw upstream response. -/
def conversionStageClientPref (clientStreamRequested : Bool)
    (upstream : UpstreamResponse)
    (conversion : Except String UpstreamResponse) : ClientResult :=
  if clientStreamRequested then .forwarded upstream
  else
    match conversion with
    | .ok converted => .forwarded converted
    | .error _ => .forwarded upstream

/-! ## Cooperative concurrency model of `ensureFreshCredentials` (part_000)

The proxy is single-threaded and event-driven: between `await` suspension
points no other logical task can run. We model `ensureFreshCredentials`
(and the `bootstrapCredentials` it falls back to) as a small-step system:
each concurrent caller is a task with a phase; a scheduler chooses which
runnable task takes its next atomic segment (the code between two
suspension points), or lets the outstanding shared refresh settle.

Faithful JS promise details encoded in the step relation:
* creating `authState.refreshPromise` immediately starts the refresh
  network call (`refreshCredentials` runs to its first await);
* the `.then`/`.catch`/`.finally` chain attached at creation runs when the
  underlying refresh settles and BEFORE the outer promise (the one the
  waiters await) resolves — so the credentials update and the
  unconditional `refreshPromise = null` of the `.finally` happen in the
  settlement step, before any waiter can be scheduled again;
* a task awaiting an unsettled promise is not runnable.

External collaborators are an oracle environment: the k-th refresh
network call's outcome (`none` = the token exchange failed or the account
claim was missing — `refreshCredentials` throws), the j-th interactive
login's resulting credentials, and the stored-credential file (mutable
`disk` state, read by `loadStoredCredentials`, written by
`persistCredentials`). -/

/-- Program points of one `ensureFreshCredentials` caller. `efAwaitShared g`
is suspended on generation `g` of the shared refresh promise;
`bsAwaitRefresh k` / `bsAwaitLogin j` are suspended inside
`bootstrapCredentials` on its own k-th refresh call / j-th interactive
login. -/
inductive Phase where
  | efEntry
  | efAwaitShared (gen : Nat)
  | bsAwaitRefresh (callIdx : Nat)
  | bsAwaitLogin (callIdx : Nat)
  | finished
deriving DecidableEq, Repr

/-- Oracle environment for the auth state machine. -/
structure AuthEnv where
  refreshOutcome : Nat → Option StoredCredentials
  loginResult : Nat → StoredCredentials
  now : Int

/-- Global state: the `authState` singleton, the credential file, I/O
counters, and the per-task phases and per-task completion records (a
finished task records the in-memory credentials it returned with). -/
structure AuthWorld where
  credentials : Option StoredCredentials := none
  sharedGens : Nat := 0
  sharedSettledGens : Nat := 0
  sharedCallIdxs : List Nat := []
  refreshCalls : Nat := 0
  loginCalls : Nat := 0
  diskReads : Nat := 0
  diskWrites : Nat := 0
  disk : Option StoredCredentials := none
  phases : List Phase := []
  results : List (Option (Option StoredCredentials)) := []
deriving DecidableEq, Repr

/-- `authState.refreshPromise !== null`: a shared refresh has been started
whose `.finally` has not yet run. -/
def refreshPromiseActive (w : AuthWorld) : Bool :=
  decide (w.sharedSettledGens < w.sharedGens)

/-- Task `i` returns from `ensureFreshCredentials`, recording the in-memory
credentials at that moment. -/
def finishTask (w : AuthWorld) (i : Nat) : AuthWorld :=
  { w with phases := w.phases.set i .finished
           results := w.results.set i (some w.credentials) }

/-- The synchronous prefix of `bootstrapCredentials` run by task `i`, up to
its first suspension (or completion): adopt valid in-memory credentials;
else read the credential file; adopt a valid stored record; else start a
refresh of a stored-but-expired record; else start the interactive login. -/
def bootstrapPrefix (env : AuthEnv) (w : AuthWorld) (i : Nat) : AuthWorld :=
  if hasValidAccess w.credentials env.now then finishTask w i
  else
    let w := { w with diskReads := w.diskReads + 1 }
    match w.disk with
    | some cached =>
      if hasValidAccess (some cached) env.now then
        finishTask { w with credentials := some cached } i
      else
        { w with refreshCalls := w.refreshCalls + 1
                 phases := w.phases.set i (.bsAwaitRefresh w.refreshCalls) }
    | none =>
      { w with loginCalls := w.loginCalls + 1
               phases := w.phases.set i (.bsAwaitLogin w.loginCalls) }

/-- The synchronous prefix of `ensureFreshCredentials` run by task `i`:
valid in-memory credentials → return at once; no credentials → run
`bootstrapCredentials`; present-but-expired → join the in-flight shared
refresh if one exists, else start one (the network call begins now) and
await it. -/
def efEntryStep (env : AuthEnv) (w : AuthWorld) (i : Nat) : AuthWorld :=
  if hasValidAccess w.credentials env.now then finishTask w i
  else
    match w.credentials with
    | none => bootstrapPrefix env w i
    | some _ =>
      if refreshPromiseActive w then
        { w with phases := w.phases.set i (.efAwaitShared (w.sharedGens - 1)) }
      else
        { w with refreshCalls := w.refreshCalls + 1
                 sharedGens := w.sharedGens + 1
                 sharedCallIdxs := w.sharedCallIdxs ++ [w.refreshCalls]
                 phases := w.phases.set i (.efAwaitShared w.sharedGens) }

/-- Scheduler events: let task `i` run its next atomic segment, or let the
outstanding shared refresh settle (running its `.then`/`.catch`/`.finally`
chain). -/
inductive AuthEvent where
  | runTask (i : Nat)
  | settleShared
deriving DecidableEq, Repr

/-- One atomic step. `none` means the event is not enabled (no such task,
task finished, task awaiting an unsettled promise, or no outstanding shared
refresh). -/
def authStep (env : AuthEnv) (w : AuthWorld) : AuthEvent → Option AuthWorld
  | .runTask i =>
    match w.phases[i]? with
    | none => none
    | some .efEntry => some (efEntryStep env w i)
    | some (.efAwaitShared g) =>
      if g < w.sharedSettledGens then
        -- `await authState.refreshPromise` has resolved; run the rest of
        -- `ensureFreshCredentials`: fall back to bootstrap iff the
        -- credentials were cleared, else return.
        some (if w.credentials.isSome then finishTask w i else bootstrapPrefix env w i)
      else none
    | some (.bsAwaitRefresh k) =>
      -- bootstrap's own `refreshCredentials(cached)` settles and the task
      -- resumes: on success the new record was persisted and is adopted;
      -- on failure the catch falls through to the interactive login.
      some (match env.refreshOutcome k with
        | some c =>
          finishTask { w with disk := some c
                              diskWrites := w.diskWrites + 1
                              credentials := some c } i
        | none =>
          { w with loginCalls := w.loginCalls + 1
                   phases := w.phases.set i (.bsAwaitLogin w.loginCalls) })
    | some (.bsAwaitLogin j) =>
      -- the interactive login completes: persist and adopt its credentials.
      some (finishTask { w with disk := some (env.loginResult j)
                                diskWrites := w.diskWrites + 1
                                credentials := some (env.loginResult j) } i)
    | some .finished => none
  | .settleShared =>
    if w.sharedSettledGens < w.sharedGens then
      let idx := w.sharedCallIdxs.getD w.sharedSettledGens 0
      let w' :=
        match env.refreshOutcome idx with
        | some c =>
          -- `.then`: adopt (and persist) the refreshed credentials.
          { w with disk := some c
                   diskWrites := w.diskWrites + 1
                   credentials := some c }
        | none =>
          -- `.catch`: clear the credentials.
          { w with credentials := none }
      -- `.finally`: clear `refreshPromise`; only now do waiters become
      -- runnable.
      some { w' with sharedSettledGens := w.sharedSettledGens + 1 }
    else none

/-- Run a schedule (a list of events); an event that is not enabled makes
the whole schedule invalid. -/
def authRun (env : AuthEnv) (w : AuthWorld) : List AuthEvent → Option AuthWorld
  | [] => some w
  | e :: rest =>
    match authStep env w e with
    | none => none
    | some w' => authRun env w' rest

/-- Initial state of the C1 scenario: `n` concurrent callers all at the
entry of `ensureFreshCredentials`, in-memory credentials `creds`, stored
file content `d`. -/
def initialWorld (n : Nat) (creds : Option StoredCredentials)
    (d : Option StoredCredentials) : AuthWorld :=
  { credentials := creds
    disk := d
    phases := List.replicate n .efEntry
    results := List.replicate n none }

/-- Inductive invariant of the C1 scenario (`n` callers starting on
present-but-expired credentials `e`, environment whose refresh calls either
fail or return valid credentials and whose logins return valid
credentials): at most one shared refresh generation ever starts; before it
starts everything is untouched; while it is in flight (the handle set)
nobody has completed; after it settles the credentials are absent or
valid; completed callers always hold valid credentials; and when the
single refresh call succeeded, every completed caller holds exactly the
refreshed record and exactly one refresh call was made. -/
structure Inv (env : AuthEnv) (n : Nat) (e : StoredCredentials)
    (w : AuthWorld) : Prop where
  len_phases : w.phases.length = n
  len_results : w.results.length = n
  gens_le : w.sharedGens ≤ 1
  settled_le : w.sharedSettledGens ≤ w.sharedGens
  idxs : w.sharedCallIdxs = List.range w.sharedGens
  stage0 : w.sharedGens = 0 →
    w.credentials = some e ∧ w.refreshCalls = 0 ∧
    (∀ p ∈ w.phases, p = Phase.efEntry) ∧ (∀ r ∈ w.results, r = none)
  stage1 : w.sharedGens = 1 → w.sharedSettledGens = 0 →
    w.credentials = some e ∧ w.refreshCalls = 1 ∧
    (∀ p ∈ w.phases, p = Phase.efEntry ∨ p = Phase.efAwaitShared 0) ∧
    (∀ r ∈ w.results, r = none)
  creds_ok : w.sharedSettledGens = 1 →
    w.credentials = none ∨ hasValidAccess w.credentials env.now = true
  results_ok : ∀ r ∈ w.results, r = none ∨
    ∃ x, r = some (some x) ∧ hasValidAccess (some x) env.now = true
  succ : ∀ c, env.refreshOutcome 0 = some c → w.sharedSettledGens = 1 →
    w.credentials = some c ∧ w.refreshCalls = 1 ∧
    (∀ p ∈ w.phases,
      p = Phase.efEntry ∨ p = Phase.efAwaitShared 0 ∨ p = Phase.finished) ∧
    (∀ r ∈ w.results, r = none ∨ r = some (some c))

/-! ## Theorems -/

/-- C6: for every credential record and every current time `now`, the
validity predicate holds if and only if `creds.expires - now > 60_000`
milliseconds (the code's `creds.expires > Date.now() + bufferMs` check is
equivalent over the integers). -/
theorem c6_hasValidAccess_iff (c : StoredCredentials) (now : Int) :
    hasValidAccess (some c) now = true ↔ c.expires - now > 60000 := by
  simp only [hasValidAccess, decide_eq_true_eq]
  omega

/-- C8: model normalization is a case-insensitive substring match — any name
containing `"codex"` maps to the codex variant `"gpt-5-codex"`; every other
input, including names containing `"gpt-5"`/`"gpt 5"`, unknown names, the
empty string and an absent name, maps to the base variant `"gpt-5"` (the
gpt-5 branch and the default fallback coincide). The spec's concrete
examples are included. -/
theorem c8_normalizeModel_spec :
    (∀ m : String,
        normalizeModel (some m) =
          if includesSubstr (toLowerStr m) "codex" then "gpt-5-codex" else "gpt-5") ∧
    normalizeModel none = "gpt-5" ∧
    normalizeModel (some "gpt-5-codex-high") = "gpt-5-codex" ∧
    normalizeModel (some "GPT 5") = "gpt-5" ∧
    normalizeModel (some "unknown-model") = "gpt-5" ∧
    normalizeModel (some "") = "gpt-5" := by
  refine ⟨fun m => ?_, rfl, by decide, by decide, by decide, by decide⟩
  by_cases hm : m = ""
  · subst hm; decide
  · simp only [normalizeModel, hm, if_false]
    by_cases hc : includesSubstr (toLowerStr m) "codex"
    · simp [hc]
    · simp only [hc, if_false, ite_self]

/-- C2 counterexample: the claim fails in the first proxy variant. There,
conversion to JSON runs whenever `FORCE_JSON_RESPONSES` is enabled (the
default), with no try/catch: for a client whose original streaming
preference is false, a failing conversion does NOT fall back to the raw
upstream stream — the exception escapes `handleResponsesEndpoint` and the
server replies `500 {"error": "Internal server error"}`. -/
theorem c2_conversion_no_fallback_counterexample :
    conversionStageForceJson true { status := 200, body := "raw-sse-stream" }
        (.error "missing terminal event") =
      .internalError 500 "Internal server error" ∧
    conversionStageForceJson true { status := 200, body := "raw-sse-stream" }
        (.error "missing terminal event") ≠
      .forwarded { status := 200, body := "raw-sse-stream" } := by
  exact ⟨rfl, by decide⟩

/-- C2 amended: in the second proxy variant (the one that captures the
client's original streaming preference before mutating the body), a failed
SSE-to-JSON conversion for a non-streaming client falls back to forwarding
the raw upstream response; a successful conversion forwards the converted
response; a streaming client always gets the raw stream. In the first
variant, conversion is governed by `FORCE_JSON_RESPONSES` irrespective of
the client's preference, and a conversion failure yields a 500 internal
error instead of a fallback. -/
theorem c2_conversion_fallback_spec :
    (∀ (u : UpstreamResponse) (msg : String),
        conversionStageClientPref false u (.error msg) = .forwarded u) ∧
    (∀ (u conv : UpstreamResponse),
        conversionStageClientPref false u (.ok conv) = .forwarded conv) ∧
    (∀ (u : UpstreamResponse) (r : Except String UpstreamResponse),
        conversionStageClientPref true u r = .forwarded u) ∧
    (∀ (u : UpstreamResponse) (msg : String),
        conversionStageForceJson true u (.error msg) =
          .internalError 500 "Internal server error") ∧
    (∀ (u : UpstreamResponse) (r : Except String UpstreamResponse),
        conversionStageForceJson false u r = .forwarded u) := by
  exact ⟨fun u msg => rfl, fun u conv => rfl, fun u r => rfl,
    fun u msg => rfl, fun u r => rfl⟩

/-- C5 counterexample: an input item whose `id` is the empty string passes
through `filterInput` unchanged — `if (item.id)` is a truthiness test and
`""` is falsy — so the filtered list can contain an item that still carries
an identifier field, contradicting the claim that no filtered item carries
one. -/
theorem c5_filterInput_empty_id_counterexample :
    filterInput (some [{ id := some "", type := "message", role := "user" }]) =
      some [{ id := some "", type := "message", role := "user" }] ∧
    (some "" : Option String) ≠ none := by
  exact ⟨rfl, by decide⟩

/-- Helper: the truthiness-guarded id strip composed with a full id erase is
just the id erase. -/
theorem stripId_erase (it : InputItem) :
    ({ (if jsTruthy it.id then { it with id := none } else it) with
        id := (none : Option String) }) = { it with id := none } := by
  by_cases h : jsTruthy it.id <;> simp [h]

/-- C5 amended: `filterInput` keeps exactly the original non-`item_reference`
items in their original relative order with no deduplication (identifiers
aside, the output is the filtered input), no `item_reference` survives, and
every surviving item's identifier is either absent or the empty string —
an empty-string identifier is NOT stripped (`if (item.id)` is a truthiness
test), so "no item carries an identifier field" holds only for truthy
identifiers. -/
theorem c5_filterInput_spec (l : List InputItem) :
    ∃ out, filterInput (some l) = some out ∧
      (out.all fun it => !(it.type == "item_reference")) = true ∧
      (out.all fun it => it.id == none || it.id == some "") = true ∧
      out.map (fun it => { it with id := none }) =
        (l.filter fun it => !(it.type == "item_reference")).map
          (fun it => { it with id := none }) := by
  refine ⟨_, rfl, ?_, ?_, ?_⟩
  · induction l with
    | nil => rfl
    | cons hd t ih =>
      simp only [List.filter_cons]
      by_cases hhd : (!(hd.type == "item_reference")) = true
      · rw [if_pos hhd]
        simp only [List.map_cons, List.all_cons, ih, Bool.and_true]
        by_cases hid : jsTruthy hd.id <;> simp [hid, hhd]
      · rw [if_neg hhd]; exact ih
  · induction l with
    | nil => rfl
    | cons hd t ih =>
      simp only [List.filter_cons]
      by_cases hhd : (!(hd.type == "item_reference")) = true
      · rw [if_pos hhd]
        simp only [List.map_cons, List.all_cons, ih, Bool.and_true]
        rcases hid : hd.id with _ | s
        · simp [jsTruthy, hid]
        · by_cases hs : s = ""
          · subst hs; simp [jsTruthy, hid]
          · simp [jsTruthy, hid, hs]
      · rw [if_neg hhd]; exact ih
  · rw [List.map_map]
    apply List.map_congr_left
    intro it _
    exact stripId_erase it

/-- C3 counterexample: `transformRequestBody` does NOT keep caller-provided
non-empty instructions — it unconditionally overwrites the `instructions`
field with the codex instruction text it is given. -/
theorem c3_transform_overwrites_instructions_counterexample :
    (transformRequestBody
        { model := some "gpt-5", instructions := some "CALLER INSTRUCTIONS" }
        "codex instruction text").instructions = some "codex instruction text" ∧
    ("CALLER INSTRUCTIONS" : String) ≠ "codex instruction text" := by
  exact ⟨rfl, by decide⟩

/-- C3 amended: the claimed resolution rule (keep caller-provided non-empty
instructions; otherwise use the cached system-instruction text — with the
literal `"You are Codex."` replacing a null/empty cached text — or the empty
string when injection is disabled) holds for the streaming proxy variant's
handler, which resolves instructions inline; `transformRequestBody` (the
transform-module path), by contrast, always overwrites `instructions` with
the codex instruction text it is passed, ignoring the caller's value. -/
theorem c3_instruction_resolution_spec :
    (∀ (caller : String) (disable : Bool) (g : Option String),
        jsTrim caller ≠ "" →
        resolveInstructions (some caller) disable g = caller) ∧
    (∀ (caller : Option String) (disable : Bool) (g : Option String),
        jsTrim (caller.getD "") = "" →
        resolveInstructions caller disable g =
          if disable then ""
          else if jsTruthy g then g.getD "" else "You are Codex.") ∧
    (∀ (body : RequestBody) (ci : String) (cfg : UserConfig) (mode : Bool)
        (cp : Option String) (bt : String) (tg : Option String),
        (transformRequestBody body ci cfg mode cp bt tg).instructions = some ci) := by
  refine ⟨?_, ?_, ?_⟩
  · intro caller disable g h
    simp [resolveInstructions, h]
  · intro caller disable g h
    simp [resolveInstructions, h]
  · intro body ci cfg mode cp bt tg
    simp only [transformRequestBody]
    cases body.input <;> simp

/-- C3 witness: concrete instances of the amended resolution rule. -/
theorem c3_instruction_resolution_witness :
    resolveInstructions (some "KEEP ME") false (some "cached text") = "KEEP ME" ∧
    resolveInstructions (some "   ") false (some "cached text") =
      (if false then ""
       else if jsTruthy (some "cached text") then (some "cached text").getD ""
       else "You are Codex.") :=
  ⟨c3_instruction_resolution_spec.1 "KEEP ME" false (some "cached text") (by decide),
   c3_instruction_resolution_spec.2.1 (some "   ") false (some "cached text") (by decide)⟩

/-- C4 counterexample: the model name `"CODEX-mini"` resolves to the codex
variant under the case-insensitive normalization rule, and its reasoning
effort resolves to `"minimal"` (lightweight default), yet the transformed
body's effort stays `"minimal"` — the downgrade checks
`originalModel.includes("codex")` case-sensitively and misses `"CODEX"`. -/
theorem c4_reasoning_downgrade_counterexample :
    normalizeModel (some "CODEX-mini") = "gpt-5-codex" ∧
    (transformRequestBody { model := some "CODEX-mini" } "ci").reasoning =
      some { effort := some .minimal, summary := some .auto } ∧
    Effort.minimal ≠ Effort.low := by
  exact ⟨rfl, rfl, by decide⟩

/-- C4 amended: the minimal-to-low downgrade triggers on the CASE-SENSITIVE
substring check `originalModel.includes("codex")` (not on the
case-insensitive normalized variant): whenever the original model name
contains `"codex"` verbatim and the effort resolves to `"minimal"` (user
override or lightweight default), the resolved effort is `"low"`; and the
transformed body's reasoning is exactly the resolved configuration
(computed from the original model name and its merged model config). -/
theorem c4_reasoning_downgrade_spec :
    (∀ (m : String) (cfg : ConfigOptions),
        includesSubstr m "codex" = true →
        cfg.reasoningEffort.getD
            (if includesSubstr m "nano" || includesSubstr m "mini"
             then Effort.minimal else Effort.medium) = Effort.minimal →
        (getReasoningConfig (some m) cfg).effort = Effort.low) ∧
    (∀ (body : RequestBody) (ci : String) (cfg : UserConfig) (mode : Bool)
        (cp : Option String) (bt : String) (tg : Option String),
        (transformRequestBody body ci cfg mode cp bt tg).reasoning =
          some { effort := some (getReasoningConfig body.model
                   (getModelConfig
                     (if jsTruthy body.model then body.model.getD ""
                      else normalizeModel body.model) cfg)).effort
                 summary := some (getReasoningConfig body.model
                   (getModelConfig
                     (if jsTruthy body.model then body.model.getD ""
                      else normalizeModel body.model) cfg)).summary }) := by
  constructor
  · intro m cfg hc he
    simp only [getReasoningConfig, hc]
    rw [he]
    simp
  · intro body ci cfg mode cp bt tg
    simp only [transformRequestBody]

/-- C4 witness: a lowercase codex model with a lightweight suffix resolves
to effort `"low"`. -/
theorem c4_reasoning_downgrade_witness :
    (getReasoningConfig (some "gpt-5-codex-mini") {}).effort = Effort.low :=
  c4_reasoning_downgrade_spec.1 "gpt-5-codex-mini" {} (by decide) (by decide)

/-- C9: the pre-upstream error mapping of `handleResponsesEndpoint` — a
non-POST method yields `405 {"error": "Method not allowed"}`; a POST with an
empty body yields `400 {"error": "Request body is required"}`; a POST whose
body fails to parse yields 400 with a message beginning
`"Invalid JSON body:"`; a POST with no credentials after
`ensureFreshCredentials` yields `401 {"error": "Authentication required"}`;
and in every such short-circuit no upstream call is made. -/
theorem c9_error_mapping :
    (∀ (method rawBody : String) (parse : Except String RequestBody)
        (creds : Option StoredCredentials),
        method ≠ "POST" →
        handleResponsesEndpoint method rawBody parse creds =
          .errorResponse 405 "Method not allowed") ∧
    (∀ (parse : Except String RequestBody) (creds : Option StoredCredentials),
        handleResponsesEndpoint "POST" "" parse creds =
          .errorResponse 400 "Request body is required") ∧
    (∀ (rawBody detail : String) (creds : Option StoredCredentials),
        rawBody ≠ "" →
        handleResponsesEndpoint "POST" rawBody (.error detail) creds =
          .errorResponse 400 ("Invalid JSON body: " ++ detail) ∧
        ∃ rest, "Invalid JSON body: " ++ detail = "Invalid JSON body:" ++ rest) ∧
    (∀ (rawBody : String) (parsedBody : RequestBody),
        rawBody ≠ "" →
        handleResponsesEndpoint "POST" rawBody (.ok parsedBody) none =
          .errorResponse 401 "Authentication required") ∧
    (∀ (method rawBody : String) (parse : Except String RequestBody)
        (creds : Option StoredCredentials) (status : Nat) (msg : String),
        handleResponsesEndpoint method rawBody parse creds =
          .errorResponse status msg →
        callsUpstream (handleResponsesEndpoint method rawBody parse creds) = false) := by
  refine ⟨?_, ?_, ?_, ?_, ?_⟩
  · intro method rawBody parse creds h
    simp [handleResponsesEndpoint, h]
  · intro parse creds
    simp [handleResponsesEndpoint]
  · intro rawBody detail creds h
    refine ⟨by simp [handleResponsesEndpoint, h], " " ++ detail, ?_⟩
    have hsplit : ("Invalid JSON body: " : String) = "Invalid JSON body:" ++ " " := by
      decide
    rw [hsplit, String.append_assoc]
  · intro rawBody parsedBody h
    simp [handleResponsesEndpoint, h]
  · intro method rawBody parse creds status msg h
    rw [h]
    rfl

/-- C9 witness: the four short-circuits at concrete requests. -/
theorem c9_error_mapping_witness :
    handleResponsesEndpoint "GET" "" (.ok {}) none =
      .errorResponse 405 "Method not allowed" ∧
    handleResponsesEndpoint "POST" "" (.ok {}) none =
      .errorResponse 400 "Request body is required" ∧
    handleResponsesEndpoint "POST" "\x7b" (.error "Unexpected end of JSON input") none =
      .errorResponse 400 ("Invalid JSON body: " ++ "Unexpected end of JSON input") ∧
    handleResponsesEndpoint "POST" "{}" (.ok {}) none =
      .errorResponse 401 "Authentication required" :=
  ⟨c9_error_mapping.1 "GET" "" (.ok {}) none (by decide),
   c9_error_mapping.2.1 (.ok {}) none,
   (c9_error_mapping.2.2.1 "\x7b" "Unexpected end of JSON input" none (by decide)).1,
   c9_error_mapping.2.2.2.1 "{}" {} (by decide)⟩

/-- C10: the server proxies a request to the responses endpoint exactly when
the normalized path starts with `"/responses"` (so `"/responses/extra"` and
`"/responsesfoo"` are proxied, not 404), and 404 is returned exactly when
the prefix test fails and the request is not a GET whose normalized path is
`"/health"`. The spec's path-normalization examples are included. -/
theorem c10_dispatch_spec :
    (∀ (method pathname : String),
        dispatch method pathname = .responses ↔
          jsStartsWith (normalizePath pathname) "/responses" = true) ∧
    (∀ (method pathname : String),
        dispatch method pathname = .notFound ↔
          (jsStartsWith (normalizePath pathname) "/responses" = false ∧
           ¬(method = "GET" ∧ normalizePath pathname = "/health"))) ∧
    dispatch "POST" "/responses/extra" = .responses ∧
    dispatch "POST" "/responsesfoo" = .responses ∧
    dispatch "POST" "/v1/responses" = .responses ∧
    dispatch "GET" "/health" = .health ∧
    dispatch "GET" "/v1/health" = .health ∧
    dispatch "POST" "/other" = .notFound ∧
    normalizePath "/v1/responses" = "/responses" ∧
    normalizePath "/v1" = "/" ∧
    normalizePath "/other" = "/other" := by
  refine ⟨?_, ?_, by decide, by decide, by decide, by decide, by decide,
    by decide, by decide, by decide, by decide⟩
  · intro method pathname
    simp only [dispatch]
    by_cases h1 : method = "GET" ∧ normalizePath pathname = "/health"
    · rw [if_pos h1, h1.2]
      decide
    · rw [if_neg h1]
      by_cases h2 : jsStartsWith (normalizePath pathname) "/responses" = true
      · simp [h2]
      · simp [h2]
  · intro method pathname
    simp only [dispatch]
    by_cases h1 : method = "GET" ∧ normalizePath pathname = "/health"
    · rw [if_pos h1]
      have : jsStartsWith (normalizePath pathname) "/responses" = false := by
        rw [h1.2]; decide
      simp [this, h1]
    · rw [if_neg h1]
      by_cases h2 : jsStartsWith (normalizePath pathname) "/responses" = true
      · simp [h2]
      · simp [h2, h1]

/-- C7: the fast path of `ensureFreshCredentials` — whenever the in-memory
credentials are valid at the time of the call, a caller at the entry point
completes in one atomic step with zero refresh/login network calls, zero
credential-file reads/writes, and the auth state (credentials and in-flight
refresh handle) unchanged. In particular a second call made right after one
that established valid credentials is such a caller and performs zero
network calls. -/
theorem c7_ensureFresh_fast_path (env : AuthEnv) (w : AuthWorld) (i : Nat)
    (hp : w.phases[i]? = some .efEntry)
    (hv : hasValidAccess w.credentials env.now = true) :
    ∃ w', authStep env w (.runTask i) = some w' ∧
      w'.credentials = w.credentials ∧
      refreshPromiseActive w' = refreshPromiseActive w ∧
      w'.sharedGens = w.sharedGens ∧
      w'.sharedSettledGens = w.sharedSettledGens ∧
      w'.refreshCalls = w.refreshCalls ∧
      w'.loginCalls = w.loginCalls ∧
      w'.diskReads = w.diskReads ∧
      w'.diskWrites = w.diskWrites ∧
      w'.disk = w.disk ∧
      w'.phases = w.phases.set i .finished ∧
      w'.results = w.results.set i (some w.credentials) := by
  have hstep : authStep env w (.runTask i) = some (finishTask w i) := by
    simp [authStep, hp, efEntryStep, hv]
  exact ⟨finishTask w i, hstep, rfl, rfl, rfl, rfl, rfl, rfl, rfl, rfl, rfl,
    rfl, rfl⟩

/-- C7 witness: a concrete caller with valid in-memory credentials finishes
immediately, leaving every counter and the auth state untouched. -/
theorem c7_ensureFresh_fast_path_witness :
    ∃ w', authStep
        ⟨fun _ => none, fun _ => ⟨"", "", 0, ""⟩, 0⟩
        { credentials := some ⟨"at", "rt", 100000, "acct"⟩
          phases := [Phase.efEntry], results := [none] }
        (.runTask 0) = some w' ∧
      w'.credentials = some ⟨"at", "rt", 100000, "acct"⟩ ∧
      refreshPromiseActive w' = false ∧
      w'.sharedGens = 0 ∧
      w'.sharedSettledGens = 0 ∧
      w'.refreshCalls = 0 ∧
      w'.loginCalls = 0 ∧
      w'.diskReads = 0 ∧
      w'.diskWrites = 0 ∧
      w'.disk = none ∧
      w'.phases = [Phase.finished] ∧
      w'.results = [some (some ⟨"at", "rt", 100000, "acct"⟩)] :=
  c7_ensureFresh_fast_path
    ⟨fun _ => none, fun _ => ⟨"", "", 0, ""⟩, 0⟩
    { credentials := some ⟨"at", "rt", 100000, "acct"⟩
      phases := [Phase.efEntry], results := [none] }
    0 (by decide) (by decide)

/-- Helper: indexing hit implies membership. -/
theorem memOfGetElem {α : Type} {l : List α} {n : Nat} {a : α}
    (h : l[n]? = some a) : a ∈ l := by
  obtain ⟨hn, rfl⟩ := List.getElem?_eq_some.mp h
  exact List.getElem_mem hn

/-- Helper: the invariant holds in the initial C1 scenario state. -/
theorem inv_init (env : AuthEnv) (n : Nat) (e : StoredCredentials)
    (d : Option StoredCredentials) :
    Inv env n e (initialWorld n (some e) d) := by
  refine
    { len_phases := List.length_replicate n _
      len_results := List.length_replicate n _
      gens_le := by norm_num [initialWorld]
      settled_le := le_refl 0
      idxs := rfl
      stage0 := fun _ => ⟨rfl, rfl, fun p hp => List.eq_of_mem_replicate hp,
        fun r hr => List.eq_of_mem_replicate hr⟩
      stage1 := fun h _ => absurd h (by norm_num [initialWorld])
      creds_ok := fun h => absurd h (by norm_num [initialWorld])
      results_ok := fun r hr => Or.inl (List.eq_of_mem_replicate hr)
      succ := fun c _ h => absurd h (by norm_num [initialWorld]) }

/-- Helper: completing a caller preserves the invariant once the shared
refresh has settled and the in-memory credentials are valid. -/
theorem inv_finish {env : AuthEnv} {n : Nat} {e : StoredCredentials}
    {w : AuthWorld} (hw : Inv env n e w) (i : Nat)
    (hset : w.sharedSettledGens = 1)
    (hval : hasValidAccess w.credentials env.now = true) :
    Inv env n e (finishTask w i) := by
  obtain ⟨x, hx⟩ : ∃ x, w.credentials = some x := by
    rcases hc : w.credentials with _ | x
    · rw [hc] at hval; simp [hasValidAccess] at hval
    · exact ⟨x, rfl⟩
  have hg : w.sharedGens = 1 := le_antisymm hw.gens_le (hset ▸ hw.settled_le)
  refine
    { len_phases := by simp [finishTask, hw.len_phases]
      len_results := by simp [finishTask, hw.len_results]
      gens_le := hw.gens_le
      settled_le := hw.settled_le
      idxs := hw.idxs
      stage0 := fun h0 => absurd h0 (by simp only [finishTask]; omega)
      stage1 := fun _ h2 => absurd h2 (by simp only [finishTask]; omega)
      creds_ok := fun _ => Or.inr hval
      results_ok := ?_
      succ := ?_ }
  · intro r hr
    rcases List.mem_or_eq_of_mem_set hr with hr' | rfl
    · exact hw.results_ok r hr'
    · exact Or.inr ⟨x, by rw [hx], hx ▸ hval⟩
  · intro c hc hs
    obtain ⟨hcc, hrc, hph, hres⟩ := hw.succ c hc hset
    refine ⟨hcc, hrc, ?_, ?_⟩
    · intro p hp
      rcases List.mem_or_eq_of_mem_set hp with hp' | rfl
      · exact hph p hp'
      · exact Or.inr (Or.inr rfl)
    · intro r hr
      rcases List.mem_or_eq_of_mem_set hr with hr' | rfl
      · exact hres r hr'
      · exact Or.inr (by rw [hcc])

/-- Helper: entering `bootstrapCredentials` with cleared credentials (the
post-failure fallback) preserves the invariant. -/
theorem inv_bootstrap {env : AuthEnv} {n : Nat} {e : StoredCredentials}
    {w : AuthWorld}
    (hw : Inv env n e w) (i : Nat)
    (hset : w.sharedSettledGens = 1)
    (hcnone : w.credentials = none) :
    Inv env n e (bootstrapPrefix env w i) := by
  have hg : w.sharedGens = 1 := le_antisymm hw.gens_le (hset ▸ hw.settled_le)
  have hnv : hasValidAccess w.credentials env.now = false := by
    rw [hcnone]; rfl
  have hsucc_vac : ∀ c, env.refreshOutcome 0 = some c → False := by
    intro c hc
    have := (hw.succ c hc hset).1
    rw [hcnone] at this
    cases this
  simp only [bootstrapPrefix, hnv, Bool.false_eq_true, if_false]
  rcases hd : w.disk with _ | cached
  all_goals dsimp only
  · -- no stored record: start the interactive login
    refine
      { len_phases := by simpa using hw.len_phases
        len_results := hw.len_results
        gens_le := hw.gens_le
        settled_le := hw.settled_le
        idxs := hw.idxs
        stage0 := fun h0 => absurd h0 (by dsimp only; omega)
        stage1 := fun _ h2 => absurd h2 (by dsimp only; omega)
        creds_ok := fun _ => Or.inl hcnone
        results_ok := hw.results_ok
        succ := fun c hc _ => absurd hc (fun h => hsucc_vac c h) }
  · by_cases hval : hasValidAccess (some cached) env.now = true
    · -- stored record valid: adopt it and finish
      rw [if_pos hval]
      refine
        { len_phases := by simp [finishTask, hw.len_phases]
          len_results := by simp [finishTask, hw.len_results]
          gens_le := hw.gens_le
          settled_le := hw.settled_le
          idxs := hw.idxs
          stage0 := fun h0 => absurd h0 (by simp only [finishTask]; omega)
          stage1 := fun _ h2 => absurd h2 (by simp only [finishTask]; omega)
          creds_ok := fun _ => Or.inr hval
          results_ok := ?_
          succ := fun c hc _ => absurd hc (fun h => hsucc_vac c h) }
      · intro r hr
        rcases List.mem_or_eq_of_mem_set hr with hr' | rfl
        · exact hw.results_ok r hr'
        · exact Or.inr ⟨cached, rfl, hval⟩
    · -- stored record expired: start bootstrap's own refresh call
      rw [if_neg hval]
      refine
        { len_phases := by simpa using hw.len_phases
          len_results := hw.len_results
          gens_le := hw.gens_le
          settled_le := hw.settled_le
          idxs := hw.idxs
          stage0 := fun h0 => absurd h0 (by dsimp only; omega)
          stage1 := fun _ h2 => absurd h2 (by dsimp only; omega)
          creds_ok := fun _ => Or.inl hcnone
          results_ok := hw.results_ok
          succ := fun c hc _ => absurd hc (fun h => hsucc_vac c h) }

/-- Helper: every enabled scheduler step preserves the invariant, given an
environment whose refresh calls fail or return valid credentials and whose
logins return valid credentials, and an initially expired record `e`. -/
theorem inv_step {env : AuthEnv} {n : Nat} {e : StoredCredentials}
    (hexp : hasValidAccess (some e) env.now = false)
    (henvr : ∀ k, env.refreshOutcome k = none ∨
      ∃ c, env.refreshOutcome k = some c ∧ hasValidAccess (some c) env.now = true)
    (henvl : ∀ j, hasValidAccess (some (env.loginResult j)) env.now = true)
    {w w' : AuthWorld} {ev : AuthEvent}
    (hw : Inv env n e w) (hstep : authStep env w ev = some w') :
    Inv env n e w' := by
  have hsle := hw.settled_le
  have hgle := hw.gens_le
  cases ev with
  | settleShared =>
    simp only [authStep] at hstep
    split at hstep
    case isFalse => exact Option.noConfusion hstep
    case isTrue hlt =>
      have hg : w.sharedGens = 1 := le_antisymm hgle (by omega)
      have hs0 : w.sharedSettledGens = 0 := by omega
      have hidx : w.sharedCallIdxs.getD w.sharedSettledGens 0 = 0 := by
        rw [hw.idxs, hg, hs0]; rfl
      obtain ⟨hce, hrc, hph, hres⟩ := hw.stage1 hg hs0
      rw [hidx] at hstep
      rcases ho : env.refreshOutcome 0 with _ | c
      all_goals rw [ho] at hstep
      · -- the shared refresh failed: `.catch` clears the credentials
        injection hstep with h
        subst h
        exact
          { len_phases := hw.len_phases
            len_results := hw.len_results
            gens_le := hgle
            settled_le := by dsimp only; omega
            idxs := hw.idxs
            stage0 := fun h0 => absurd h0 (by dsimp only; omega)
            stage1 := fun _ h2 => absurd h2 (by dsimp only; omega)
            creds_ok := fun _ => Or.inl rfl
            results_ok := hw.results_ok
            succ := fun c0 hc0 _ => by rw [ho] at hc0; cases hc0 }
      · -- the shared refresh succeeded: `.then` adopts the new record
        have hvc : hasValidAccess (some c) env.now = true := by
          rcases henvr 0 with hnone | ⟨c', hc', hval⟩
          · rw [ho] at hnone; cases hnone
          · rw [ho] at hc'
            injection hc' with hcc
            subst hcc
            exact hval
        injection hstep with h
        subst h
        refine
          { len_phases := hw.len_phases
            len_results := hw.len_results
            gens_le := hgle
            settled_le := by dsimp only; omega
            idxs := hw.idxs
            stage0 := fun h0 => absurd h0 (by dsimp only; omega)
            stage1 := fun _ h2 => absurd h2 (by dsimp only; omega)
            creds_ok := fun _ => Or.inr hvc
            results_ok := hw.results_ok
            succ := ?_ }
        intro c0 hc0 _
        have hcc : c0 = c := by
          rw [ho] at hc0
          exact (Option.some.inj hc0).symm
        subst hcc
        exact ⟨rfl, hrc,
          fun p hp => (hph p hp).elim Or.inl (fun h => Or.inr (Or.inl h)),
          fun r hr => Or.inl (hres r hr)⟩
  | runTask i =>
    simp only [authStep] at hstep
    split at hstep
    -- no task i
    · exact Option.noConfusion hstep
    -- task i at the entry of ensureFreshCredentials
    case _ hp =>
      have hpmem : Phase.efEntry ∈ w.phases := memOfGetElem hp
      injection hstep with h
      subst h
      by_cases hv : hasValidAccess w.credentials env.now = true
      · -- valid in-memory credentials: fast path, finish at once
        have hset : w.sharedSettledGens = 1 := by
          by_cases h0 : w.sharedGens = 0
          · exact absurd hv (by rw [(hw.stage0 h0).1, hexp]; decide)
          · by_cases hs1 : w.sharedSettledGens = 0
            · have hg1 : w.sharedGens = 1 := by omega
              exact absurd hv (by rw [(hw.stage1 hg1 hs1).1, hexp]; decide)
            · omega
        have hstep2 : efEntryStep env w i = finishTask w i := by
          simp [efEntryStep, hv]
        rw [hstep2]
        exact inv_finish hw i hset hv
      · rcases hcr : w.credentials with _ | x
        · -- credentials cleared (post-failure): fall back to bootstrap
          have hset : w.sharedSettledGens = 1 := by
            by_cases h0 : w.sharedGens = 0
            · rw [(hw.stage0 h0).1] at hcr; cases hcr
            · by_cases hs1 : w.sharedSettledGens = 0
              · have hg1 : w.sharedGens = 1 := by omega
                rw [(hw.stage1 hg1 hs1).1] at hcr; cases hcr
              · omega
          have hstep2 : efEntryStep env w i = bootstrapPrefix env w i := by
            simp [efEntryStep, hcr, hasValidAccess]
          rw [hstep2]
          exact inv_bootstrap hw i hset hcr
        · -- present but expired: join or start the shared refresh
          by_cases hact : w.sharedSettledGens < w.sharedGens
          · -- a refresh is in flight: join it
            have hg1 : w.sharedGens = 1 := le_antisymm hgle (by omega)
            have hs1 : w.sharedSettledGens = 0 := by omega
            obtain ⟨hce, hrc, hph1, hres1⟩ := hw.stage1 hg1 hs1
            have hvx : hasValidAccess (some x) env.now = false := by
              rw [← hcr]; simpa using hv
            have hstep2 : efEntryStep env w i =
                { w with phases :=
                    w.phases.set i (.efAwaitShared (w.sharedGens - 1)) } := by
              simp [efEntryStep, hcr, hvx, refreshPromiseActive, hact]
            rw [hstep2]
            refine
              { len_phases := by simpa using hw.len_phases
                len_results := hw.len_results
                gens_le := hgle
                settled_le := hsle
                idxs := hw.idxs
                stage0 := fun h0 => absurd h0 (by dsimp only; omega)
                stage1 := fun _ _ => ⟨hce, hrc, ?_, hres1⟩
                creds_ok := fun hs => absurd hs (by dsimp only; omega)
                results_ok := hw.results_ok
                succ := fun c0 hc0 hs => absurd hs (by dsimp only; omega) }
            intro p hp2
            rcases List.mem_or_eq_of_mem_set hp2 with hp' | rfl
            · exact hph1 p hp'
            · rw [hg1]; exact Or.inr rfl
          · -- no refresh in flight: start one (the network call begins)
            have hg0 : w.sharedGens = 0 := by
              by_cases h0 : w.sharedGens = 0
              · exact h0
              · exfalso
                have hg1 : w.sharedGens = 1 := by omega
                have hs1 : w.sharedSettledGens = 1 := by omega
                rcases hw.creds_ok hs1 with hc0 | hcval
                · rw [hcr] at hc0; cases hc0
                · exact hv hcval
            obtain ⟨hce, hrc0, hph0, hres0⟩ := hw.stage0 hg0
            have hvx : hasValidAccess (some x) env.now = false := by
              rw [← hcr]; simpa using hv
            have hstep2 : efEntryStep env w i =
                { w with refreshCalls := w.refreshCalls + 1
                         sharedGens := w.sharedGens + 1
                         sharedCallIdxs := w.sharedCallIdxs ++ [w.refreshCalls]
                         phases := w.phases.set i (.efAwaitShared w.sharedGens) } := by
              simp [efEntryStep, hcr, hvx, refreshPromiseActive, hact]
            rw [hstep2]
            refine
              { len_phases := by simpa using hw.len_phases
                len_results := hw.len_results
                gens_le := by dsimp only; omega
                settled_le := by dsimp only; omega
                idxs := by dsimp only; rw [hw.idxs, hg0, hrc0]; rfl
                stage0 := fun h0 => absurd h0 (by dsimp only; omega)
                stage1 := fun _ _ => ⟨hce, by dsimp only; omega, ?_, hres0⟩
                creds_ok := fun hs => absurd hs (by dsimp only; omega)
                results_ok := hw.results_ok
                succ := fun c0 hc0 hs => absurd hs (by dsimp only; omega) }
            intro p hp2
            rcases List.mem_or_eq_of_mem_set hp2 with hp' | rfl
            · exact Or.inl (hph0 p hp')
            · rw [hg0]; exact Or.inr rfl
    -- task i awaiting the shared refresh promise
    case _ g hp =>
      split at hstep
      case isFalse => exact Option.noConfusion hstep
      case isTrue hlt =>
        injection hstep with h
        subst h
        have hset : w.sharedSettledGens = 1 := by omega
        by_cases hcs : w.credentials.isSome = true
        · have hval : hasValidAccess w.credentials env.now = true := by
            rcases hw.creds_ok hset with h | h
            · rw [h] at hcs; simp at hcs
            · exact h
          rw [if_pos hcs]
          exact inv_finish hw i hset hval
        · have hcnone : w.credentials = none := by
            rcases hcr : w.credentials with _ | x
            · rfl
            · rw [hcr] at hcs; simp at hcs
          rw [if_neg hcs]
          exact inv_bootstrap hw i hset hcnone
    -- task i awaiting bootstrap's own refresh call
    case _ k hp =>
      have hpmem : Phase.bsAwaitRefresh k ∈ w.phases := memOfGetElem hp
      have hset : w.sharedSettledGens = 1 := by
        by_cases h0 : w.sharedGens = 0
        · have := (hw.stage0 h0).2.2.1 _ hpmem
          simp at this
        · by_cases hs1 : w.sharedSettledGens = 0
          · have hg1 : w.sharedGens = 1 := by omega
            have := (hw.stage1 hg1 hs1).2.2.1 _ hpmem
            rcases this with h | h <;> simp at h
          · omega
      have hsuccvac : ∀ c0, env.refreshOutcome 0 = some c0 → False := by
        intro c0 hc0
        have := (hw.succ c0 hc0 hset).2.2.1 _ hpmem
        rcases this with h | h | h <;> simp at h
      rcases ho : env.refreshOutcome k with _ | c
      all_goals rw [ho] at hstep
      · -- bootstrap's refresh failed: fall through to interactive login
        injection hstep with h
        subst h
        exact
          { len_phases := by simpa using hw.len_phases
            len_results := hw.len_results
            gens_le := hgle
            settled_le := hsle
            idxs := hw.idxs
            stage0 := fun h0 => absurd h0 (by dsimp only; omega)
            stage1 := fun _ h2 => absurd h2 (by dsimp only; omega)
            creds_ok := hw.creds_ok
            results_ok := hw.results_ok
            succ := fun c0 hc0 _ => absurd hc0 (fun hh => hsuccvac c0 hh) }
      · -- bootstrap's refresh succeeded: persist, adopt, return
        have hvc : hasValidAccess (some c) env.now = true := by
          rcases henvr k with hnone | ⟨c', hc', hval⟩
          · rw [ho] at hnone; cases hnone
          · rw [ho] at hc'
            injection hc' with hcc
            subst hcc
            exact hval
        injection hstep with h
        subst h
        refine
          { len_phases := by simp [finishTask, hw.len_phases]
            len_results := by simp [finishTask, hw.len_results]
            gens_le := hgle
            settled_le := hsle
            idxs := hw.idxs
            stage0 := fun h0 => absurd h0 (by simp only [finishTask]; omega)
            stage1 := fun _ h2 => absurd h2 (by simp only [finishTask]; omega)
            creds_ok := fun _ => Or.inr hvc
            results_ok := ?_
            succ := fun c0 hc0 _ => absurd hc0 (fun hh => hsuccvac c0 hh) }
        intro r hr
        rcases List.mem_or_eq_of_mem_set hr with hr' | rfl
        · exact hw.results_ok r hr'
        · exact Or.inr ⟨c, rfl, hvc⟩
    -- task i awaiting the interactive login
    case _ j hp =>
      have hpmem : Phase.bsAwaitLogin j ∈ w.phases := memOfGetElem hp
      have hset : w.sharedSettledGens = 1 := by
        by_cases h0 : w.sharedGens = 0
        · have := (hw.stage0 h0).2.2.1 _ hpmem
          simp at this
        · by_cases hs1 : w.sharedSettledGens = 0
          · have hg1 : w.sharedGens = 1 := by omega
            have := (hw.stage1 hg1 hs1).2.2.1 _ hpmem
            rcases this with h | h <;> simp at h
          · omega
      have hsuccvac : ∀ c0, env.refreshOutcome 0 = some c0 → False := by
        intro c0 hc0
        have := (hw.succ c0 hc0 hset).2.2.1 _ hpmem
        rcases this with h | h | h <;> simp at h
      injection hstep with h
      subst h
      refine
        { len_phases := by simp [finishTask, hw.len_phases]
          len_results := by simp [finishTask, hw.len_results]
          gens_le := hgle
          settled_le := hsle
          idxs := hw.idxs
          stage0 := fun h0 => absurd h0 (by simp only [finishTask]; omega)
          stage1 := fun _ h2 => absurd h2 (by simp only [finishTask]; omega)
          creds_ok := fun _ => Or.inr (henvl j)
          results_ok := ?_
          succ := fun c0 hc0 _ => absurd hc0 (fun hh => hsuccvac c0 hh) }
      intro r hr
      rcases List.mem_or_eq_of_mem_set hr with hr' | rfl
      · exact hw.results_ok r hr'
      · exact Or.inr ⟨env.loginResult j, rfl, henvl j⟩
    -- task i already finished
    · exact Option.noConfusion hstep

/-- Helper: the invariant is preserved along any schedule. -/
theorem inv_run {env : AuthEnv} {n : Nat} {e : StoredCredentials}
    (hexp : hasValidAccess (some e) env.now = false)
    (henvr : ∀ k, env.refreshOutcome k = none ∨
      ∃ c, env.refreshOutcome k = some c ∧ hasValidAccess (some c) env.now = true)
    (henvl : ∀ j, hasValidAccess (some (env.loginResult j)) env.now = true)
    {w w' : AuthWorld} {evs : List AuthEvent}
    (hw : Inv env n e w) (hrun : authRun env w evs = some w') :
    Inv env n e w' := by
  induction evs generalizing w with
  | nil =>
    simp only [authRun] at hrun
    injection hrun with h
    exact h ▸ hw
  | cons ev rest ih =>
    simp only [authRun] at hrun
    split at hrun
    · exact Option.noConfusion hrun
    case _ w1 hs => exact ih (inv_step hexp henvr henvl hw hs) hrun

/-- C1 amended: starting from `n` concurrent `ensureFreshCredentials`
callers that all observe present-but-expired in-memory credentials (in an
environment where refresh calls either fail or return valid credentials and
logins return valid credentials), every schedule satisfies: (a) at most one
shared refresh is ever started — concurrent callers join the in-flight one;
(b) while the in-flight handle is set, exactly one refresh network call has
been made, no caller has completed, and no caller has proceeded past the
shared await (the handle is cleared at settlement, before any waiter is
released); (c) a caller only ever completes holding valid credentials,
never the stale record; (d) if the single shared refresh SUCCEEDS, the
total number of refresh network calls is exactly one and every completed
caller observes exactly the refreshed record. (The original claim's
"exactly one refresh network call" unconditionally is false: on refresh
FAILURE every waiter independently falls back to `bootstrapCredentials`,
which can issue further refresh network calls — see the counterexample.) -/
theorem c1_single_flight_spec
    (env : AuthEnv) (n : Nat) (e : StoredCredentials)
    (d : Option StoredCredentials)
    (hexp : hasValidAccess (some e) env.now = false)
    (henvr : ∀ k, env.refreshOutcome k = none ∨
      ∃ c, env.refreshOutcome k = some c ∧ hasValidAccess (some c) env.now = true)
    (henvl : ∀ j, hasValidAccess (some (env.loginResult j)) env.now = true)
    (evs : List AuthEvent) (w' : AuthWorld)
    (hrun : authRun env (initialWorld n (some e) d) evs = some w') :
    w'.sharedGens ≤ 1 ∧
    (refreshPromiseActive w' = true →
      w'.refreshCalls = 1 ∧ (∀ r ∈ w'.results, r = none) ∧
      (∀ p ∈ w'.phases, p = Phase.efEntry ∨ p = Phase.efAwaitShared 0)) ∧
    (∀ r ∈ w'.results, r = none ∨
      ∃ x, r = some (some x) ∧ hasValidAccess (some x) env.now = true) ∧
    (∀ c, env.refreshOutcome 0 = some c →
      w'.refreshCalls ≤ 1 ∧
      (∀ r ∈ w'.results, r = none ∨ r = some (some c)) ∧
      ((∀ r ∈ w'.results, r ≠ none) → 0 < n → w'.refreshCalls = 1)) := by
  have hw' : Inv env n e w' :=
    inv_run hexp henvr henvl (inv_init env n e d) hrun
  refine ⟨hw'.gens_le, ?_, hw'.results_ok, ?_⟩
  · intro hpend
    have hlt : w'.sharedSettledGens < w'.sharedGens := by
      simpa [refreshPromiseActive] using hpend
    have hg1 : w'.sharedGens = 1 := le_antisymm hw'.gens_le (by omega)
    have hs0 : w'.sharedSettledGens = 0 := by omega
    obtain ⟨_, hrc, hph, hres⟩ := hw'.stage1 hg1 hs0
    exact ⟨hrc, hres, hph⟩
  · intro c hc
    by_cases h0 : w'.sharedGens = 0
    · obtain ⟨_, hrc, _, hres⟩ := hw'.stage0 h0
      refine ⟨by omega, fun r hr => Or.inl (hres r hr), ?_⟩
      intro hall hn
      obtain ⟨r, hrmem⟩ := List.exists_mem_of_length_pos
        (by rw [hw'.len_results]; exact hn)
      exact absurd (hres r hrmem) (hall r hrmem)
    · by_cases hs1 : w'.sharedSettledGens = 0
      · have hg1 : w'.sharedGens = 1 := by
          have := hw'.gens_le; omega
        obtain ⟨_, hrc, _, hres⟩ := hw'.stage1 hg1 hs1
        exact ⟨le_of_eq hrc, fun r hr => Or.inl (hres r hr), fun _ _ => hrc⟩
      · have hs1' : w'.sharedSettledGens = 1 := by
          have := hw'.settled_le; have := hw'.gens_le; omega
        obtain ⟨_, hrc, _, hres⟩ := hw'.succ c hc hs1'
        exact ⟨le_of_eq hrc, hres, fun _ _ => hrc⟩

/-- C1 witness: two concurrent callers on an expired record with a
succeeding refresh — the amended theorem applied at this concrete scenario:
the run makes exactly one refresh network call and every completed caller
observes exactly the refreshed record. -/
theorem c1_single_flight_witness :
    (1 : Nat) ≤ 1 ∧
    (∀ r ∈ [some (some (⟨"na", "nr", 10000000, "acct"⟩ : StoredCredentials)),
            some (some (⟨"na", "nr", 10000000, "acct"⟩ : StoredCredentials))],
      r = none ∨
        r = some (some (⟨"na", "nr", 10000000, "acct"⟩ : StoredCredentials))) := by
  have h := c1_single_flight_spec
    { refreshOutcome := fun _ => some ⟨"na", "nr", 10000000, "acct"⟩
      loginResult := fun _ => ⟨"la", "lr", 10000000, "acct"⟩
      now := 1000000 }
    2 ⟨"a", "r", 0, "acct"⟩ none (by decide)
    (fun _ => Or.inr ⟨⟨"na", "nr", 10000000, "acct"⟩, rfl, by
      show hasValidAccess (some ⟨"na", "nr", 10000000, "acct"⟩) 1000000 = true
      decide⟩)
    (fun _ => by
      show hasValidAccess (some ⟨"la", "lr", 10000000, "acct"⟩) 1000000 = true
      decide)
    [.runTask 0, .runTask 1, .settleShared, .runTask 0, .runTask 1]
    { credentials := some ⟨"na", "nr", 10000000, "acct"⟩
      sharedGens := 1
      sharedSettledGens := 1
      sharedCallIdxs := [0]
      refreshCalls := 1
      loginCalls := 0
      diskReads := 0
      diskWrites := 1
      disk := some ⟨"na", "nr", 10000000, "acct"⟩
      phases := [Phase.finished, Phase.finished]
      results := [some (some ⟨"na", "nr", 10000000, "acct"⟩),
                  some (some ⟨"na", "nr", 10000000, "acct"⟩)] }
    rfl
  exact ⟨(h.2.2.2 ⟨"na", "nr", 10000000, "acct"⟩ rfl).1,
         (h.2.2.2 ⟨"na", "nr", 10000000, "acct"⟩ rfl).2.1⟩

/-- C1 counterexample: the claim's unconditional "exactly one refresh
network call" is false. Two concurrent callers observe the present-but-
expired record; the single shared refresh FAILS; both waiters fall back to
`bootstrapCredentials`, each of which finds the stored-but-expired file
record and issues its own refresh network call — three refresh calls in
total — and the two callers even complete with different credentials (each
adopted its own interactive login's result), so the outcomes are not
identical either. -/
theorem c1_single_flight_counterexample :
    hasValidAccess (some ⟨"a", "r", 0, "acct"⟩) 1000000 = false ∧
    ∃ w', authRun
        { refreshOutcome := fun _ => none
          loginResult := fun j =>
            ⟨"login", "lr", 10000000, if j = 0 then "acct0" else "acct1"⟩
          now := 1000000 }
        (initialWorld 2 (some ⟨"a", "r", 0, "acct"⟩)
          (some ⟨"a", "r", 0, "acct"⟩))
        [.runTask 0, .runTask 1, .settleShared, .runTask 0, .runTask 1,
         .runTask 0, .runTask 0, .runTask 1, .runTask 1] = some w' ∧
      w'.refreshCalls = 3 ∧
      (∀ p ∈ w'.phases, p = Phase.finished) ∧
      w'.results = [some (some ⟨"login", "lr", 10000000, "acct0"⟩),
                    some (some ⟨"login", "lr", 10000000, "acct1"⟩)] ∧
      (⟨"login", "lr", 10000000, "acct0"⟩ : StoredCredentials) ≠
        ⟨"login", "lr", 10000000, "acct1"⟩ := by
  refine ⟨by decide, _, rfl, rfl, ?_, rfl, by decide⟩
  decide

end CodexProxy
